import Mathlib

/-!
Verification development for the get-news aggregation service.

The Python sources are shallowly embedded below:
* `src/services/news_service.py` : `NewsService.fetch_news`, `_parse_date`,
  `_enhance_keyword_for_indian_content` (the two network adapters
  `_fetch_from_newsapi` / `_fetch_from_gnews` are outbound HTTP calls and are
  modelled as per-call oracle results of type `Except Unit (List Article)`).
* `src/utils/formatter.py` : `format_chat_response`, `format_time_ago`,
  `create_simple_sentiment`, `create_simple_summary`,
  `generate_follow_up_suggestions`.
* `src/app.py` : the post-aggregation branch of the `/news` route (`get_news`).

Python strings are embedded as `String`; the string manipulation the code
performs (`split`, `replace`, `strip`, slicing, substring tests) is modelled by
structurally recursive functions on `List Char` so that every definition
evaluates inside the kernel.  `datetime` values are modelled by their POSIX
timestamp in whole seconds (`Int`); the process runs with a UTC wall clock, so
naive datetimes are interpreted as UTC, which matches both
`NewsService._parse_date` (naive `datetime.timestamp()` under `TZ=UTC`) and
`format_time_ago` (which explicitly attaches `timezone.utc` to naive values).
-/

/-! ### Character-list models of the Python `str` operations used by the code -/

/-- Model of Python `needle in hay` (substring containment). -/
def occursIn (needle : List Char) : List Char → Bool
  | [] => needle.isEmpty
  | c :: rest => needle.isPrefixOf (c :: rest) || occursIn needle rest

/-- Model of Python `sub in hay` on `String`s, i.e. substring containment. -/
def containsStr (hay sub : String) : Bool :=
  occursIn sub.toList hay.toList

/-- Model of Python `s.lower()` (the code only feeds ASCII keywords through it). -/
def lowerChars (cs : List Char) : List Char :=
  cs.map Char.toLower

/-- Model of Python `s.replace('Z', '+00:00')` (replaces every occurrence). -/
def replZ : List Char → List Char
  | [] => []
  | 'Z' :: rest => '+' :: '0' :: '0' :: ':' :: '0' :: '0' :: replZ rest
  | c :: rest => c :: replZ rest

/-- Model of Python `content.split('. ')`: split on every non-overlapping
occurrence of the two-character separator `". "`, scanning left to right. -/
def splitDotSpace : List Char → List (List Char)
  | '.' :: ' ' :: rest => [] :: splitDotSpace rest
  | c :: rest =>
    match splitDotSpace rest with
    | [] => [[c]]
    | g :: gs => (c :: g) :: gs
  | [] => [[]]

/-- Model of Python `s.split(',')`. -/
def splitComma : List Char → List (List Char)
  | ',' :: rest => [] :: splitComma rest
  | c :: rest =>
    match splitComma rest with
    | [] => [[c]]
    | g :: gs => (c :: g) :: gs
  | [] => [[]]

/-- Model of Python `s.strip()`: drop whitespace from both ends. -/
def chTrim (cs : List Char) : List Char :=
  ((cs.dropWhile Char.isWhitespace).reverse.dropWhile Char.isWhitespace).reverse

/-- Model of the Python slice `s[:k]` for an `int` index `k`: a negative index
counts from the end of the string and clamps at `0`. -/
def pyTake (k : Int) (cs : List Char) : List Char :=
  if 0 ≤ k then cs.take k.toNat else cs.take (cs.length - (-k).toNat)

/-! ### The `datetime` model

`NewsService._parse_date` and `format_time_ago` parse provider timestamps with
`datetime.fromisoformat` (after replacing `'Z'` with `'+00:00'` when the string
contains `'T'`).  `fromiso` below models the strict (pre-3.11) reader of
`datetime.isoformat` output, restricted to whole seconds: `YYYY-MM-DD`,
optionally followed by one separator character (any character, as in CPython's
reader) and `HH:MM:SS`, optionally followed by a `±HH:MM` UTC offset.  The
result is the POSIX timestamp in seconds, with naive values read as UTC. -/

/-- Numeric value of a decimal digit character. -/
def digitVal (c : Char) : Option Nat :=
  if c.isDigit then some (c.toNat - 48) else none

/-- Read exactly two decimal digits. -/
def take2 : List Char → Option (Nat × List Char)
  | c₁ :: c₂ :: rest => do
    let d₁ ← digitVal c₁
    let d₂ ← digitVal c₂
    pure (10 * d₁ + d₂, rest)
  | _ => none

/-- Read exactly four decimal digits. -/
def take4 : List Char → Option (Nat × List Char)
  | c₁ :: c₂ :: c₃ :: c₄ :: rest => do
    let d₁ ← digitVal c₁
    let d₂ ← digitVal c₂
    let d₃ ← digitVal c₃
    let d₄ ← digitVal c₄
    pure (1000 * d₁ + 100 * d₂ + 10 * d₃ + d₄, rest)
  | _ => none

/-- Read one or two decimal digits (greedy), as the `strptime` number fields do. -/
def take12 : List Char → Option (Nat × List Char)
  | c₁ :: rest =>
    match digitVal c₁ with
    | none => none
    | some d₁ =>
      match rest with
      | c₂ :: rest₂ =>
        match digitVal c₂ with
        | some d₂ => some (10 * d₁ + d₂, rest₂)
        | none => some (d₁, rest)
      | [] => some (d₁, [])
  | [] => none

/-- Expect one specific character. -/
def expectCh (c : Char) : List Char → Option (List Char)
  | d :: rest => if d = c then some rest else none
  | [] => none

/-- Gregorian leap-year test, as in `datetime`. -/
def isLeap (y : Nat) : Bool :=
  y % 4 == 0 && (y % 100 != 0 || y % 400 == 0)

/-- Month lengths of a (non-)leap year. -/
def monthLengths (leap : Bool) : List Nat :=
  [31, if leap then 29 else 28, 31, 30, 31, 30, 31, 31, 30, 31, 30, 31]

/-- Days in month `m` (1-based) of year `y`. -/
def daysInMonth (y m : Nat) : Nat :=
  (monthLengths (isLeap y)).getD (m - 1) 31

/-- Days of year `y` strictly before month `m` (1-based). -/
def daysBeforeMonth (y m : Nat) : Nat :=
  ((monthLengths (isLeap y)).take (m - 1)).sum

/-- Proleptic-Gregorian day number of `y-m-d`, with day 0 = 0001-01-01
(equal to Python's `date.toordinal() - 1`). -/
def toOrdinal (y m d : Nat) : Nat :=
  365 * (y - 1) + (y - 1) / 4 + (y - 1) / 400 - (y - 1) / 100
    + daysBeforeMonth y m + (d - 1)

/-- POSIX timestamp (in whole seconds) of the civil datetime `y-m-d h:mi:s`
with UTC offset `offset` seconds: this is Python's `datetime.timestamp()`. -/
def civilTimestamp (y m d h mi s : Nat) (offset : Int) : Int :=
  ((toOrdinal y m d : Int) - 719162) * 86400 + (h * 3600 + mi * 60 + s : Nat) - offset

/-- `datetime.min.replace(tzinfo=timezone.utc).timestamp()`: the sentinel for
empty/unparsable timestamps, 0001-01-01T00:00:00+00:00. -/
def minTimestamp : Int :=
  civilTimestamp 1 1 1 0 0 0 0

/-- Model of `datetime.fromisoformat` (strict whole-second forms), returning the
POSIX timestamp; naive datetimes are read as UTC.  Grammar:
`YYYY-MM-DD[<sep>HH:MM:SS[(+|-)HH:MM]]` where `<sep>` is any one character. -/
def fromiso (s : String) : Option Int := do
  let cs := s.toList
  let (y, cs) ← take4 cs
  let cs ← expectCh '-' cs
  let (m, cs) ← take2 cs
  let cs ← expectCh '-' cs
  let (d, cs) ← take2 cs
  if 1 ≤ y ∧ 1 ≤ m ∧ m ≤ 12 ∧ 1 ≤ d ∧ d ≤ daysInMonth y m then
    match cs with
    | [] => pure (civilTimestamp y m d 0 0 0 0)
    | _sep :: cs => do
      let (h, cs) ← take2 cs
      let cs ← expectCh ':' cs
      let (mi, cs) ← take2 cs
      let cs ← expectCh ':' cs
      let (sec, cs) ← take2 cs
      if h ≤ 23 ∧ mi ≤ 59 ∧ sec ≤ 59 then
        match cs with
        | [] => pure (civilTimestamp y m d h mi sec 0)
        | sign :: cs => do
          let (oh, cs) ← take2 cs
          let cs ← expectCh ':' cs
          let (om, cs) ← take2 cs
          if (sign = '+' ∨ sign = '-') ∧ oh ≤ 23 ∧ om ≤ 59 ∧ cs = [] then
            let off : Int := (oh * 3600 + om * 60 : Nat)
            pure (civilTimestamp y m d h mi sec (if sign = '+' then off else -off))
          else none
      else none
  else none

/-- Model of `datetime.strptime(date_str, '%Y-%m-%d %H:%M:%S')` (the fallback
format in `_parse_date`): 4-digit year, 1-2 digit other fields, naive → UTC. -/
def strptimeFallback (s : String) : Option Int := do
  let cs := s.toList
  let (y, cs) ← take4 cs
  let cs ← expectCh '-' cs
  let (m, cs) ← take12 cs
  let cs ← expectCh '-' cs
  let (d, cs) ← take12 cs
  let cs ← expectCh ' ' cs
  let (h, cs) ← take12 cs
  let cs ← expectCh ':' cs
  let (mi, cs) ← take12 cs
  let cs ← expectCh ':' cs
  let (sec, cs) ← take12 cs
  if cs = [] ∧ 1 ≤ y ∧ 1 ≤ m ∧ m ≤ 12 ∧ 1 ≤ d ∧ d ≤ daysInMonth y m
      ∧ h ≤ 23 ∧ mi ≤ 59 ∧ sec ≤ 59 then
    pure (civilTimestamp y m d h mi sec 0)
  else none

/-- The pre-parsing step shared by `_parse_date` and `format_time_ago`: if the
string contains `'T'`, replace `'Z'` with `'+00:00'` first. -/
def preprocessDate (s : String) : String :=
  if s.toList.contains 'T' then String.mk (replZ s.toList) else s

/-- `NewsService._parse_date`, composed with `.timestamp()` as used by the sort
key in `fetch_news`: empty string → `datetime.min`; try `fromisoformat` (with
the `'Z'` replacement when `'T'` occurs); then `strptime '%Y-%m-%d %H:%M:%S'`;
on failure `datetime.min` (UTC). -/
def parse_date (date_str : String) : Int :=
  if date_str = "" then minTimestamp
  else
    match fromiso (preprocessDate date_str) with
    | some t => t
    | none => (strptimeFallback date_str).getD minTimestamp

/-- A date string is parsable when either reader accepts it. -/
def parsableDate (s : String) : Bool :=
  (fromiso (preprocessDate s)).isSome || (strptimeFallback s).isSome

/-! ### Data model

`Article` is the canonical dict built by both source adapters
(`_fetch_from_newsapi` / `_fetch_from_gnews`): keys `title`, `content`,
`source`, `publishedAt`, `url`.  The aggregator later sets the extra
`country_priority` key on articles from the per-country GNews calls;
`TaggedArticle` carries that optional tag (`none` = key absent). -/

structure Article where
  title : String
  content : String
  source : String
  publishedAt : String
  url : String
deriving DecidableEq, Repr

/-- An article as it sits in `all_articles`: the adapter dict plus the
optional `country_priority` key set by the aggregator loop. -/
structure TaggedArticle where
  art : Article
  country_priority : Option Nat
deriving DecidableEq, Repr

/-- `x.get('country_priority', 999)`: the sort key's priority component. -/
def prio (a : TaggedArticle) : Nat :=
  a.country_priority.getD 999

/-- Parsed publish time of an article (`_parse_date(x.get('publishedAt', ''))`). -/
def tsOf (a : TaggedArticle) : Int :=
  parse_date a.art.publishedAt

/-! ### Keyword enhancer (`_enhance_keyword_for_indian_content`) -/

/-- The `indian_movie_terms` dict, in insertion order.  The `'movies'` and
`'cinema'` entries interpolate the original (un-lowered) keyword. -/
def indian_movie_terms (keyword : String) : List (String × String) :=
  [("indian movies", "indian movies bollywood tollywood kollywood"),
   ("bollywood", "bollywood hindi cinema mumbai films"),
   ("tollywood", "tollywood telugu cinema hyderabad films"),
   ("kollywood", "kollywood tamil cinema chennai films"),
   ("movies", keyword ++ " bollywood hindi telugu tamil"),
   ("cinema", keyword ++ " indian cinema bollywood")]

/-- The generic entertainment trigger words. -/
def entertainmentTerms : List String :=
  ["entertainment", "celebrity", "actor", "actress"]

/-- `NewsService._enhance_keyword_for_indian_content` (the Python local
`keyword_lower = keyword.lower()` is inlined). -/
def enhance_keyword_for_indian_content (keyword : String) : String :=
  match (indian_movie_terms keyword).find?
      (fun p => occursIn p.1.toList (lowerChars keyword.toList)) with
  | some p => p.2
  | none =>
    if entertainmentTerms.any (fun w => occursIn w.toList (lowerChars keyword.toList)) then
      keyword ++ " india bollywood"
    else keyword

/-! ### Aggregator (`NewsService.fetch_news`)

The two adapters perform network I/O; each call is modelled by an oracle
outcome `Except Unit (List Article)`: `.ok arts` for a call that returned a
(filtered) article list, `.error ()` for a call whose exception was caught by
the surrounding `try`/`except`.  The GNews loop iterates over
`countries_list or [None]`; its i-th call's outcome is `gnewsRes i`.  When
`countries_list` is empty the code afterwards issues one more country-less
GNews call, whose outcome is `gnewsGeneral`. -/

/-- `[c.strip() for c in country.split(',')]` guarded by `if country:`. -/
def countriesList : Option String → List String
  | none => []
  | some c =>
    if c = "" then []
    else (splitComma c.toList).map (fun g => String.mk (chTrim g))

/-- Articles produced by an adapter call (an absorbed exception yields none). -/
def yieldOf : Except Unit (List Article) → List Article
  | .ok l => l
  | .error _ => []

/-- Articles appended without the `country_priority` key. -/
def tagNone (l : List Article) : List TaggedArticle :=
  l.map (fun a => ⟨a, none⟩)

/-- Articles tagged `article['country_priority'] = i` by the GNews loop. -/
def tagWith (i : Nat) (l : List Article) : List TaggedArticle :=
  l.map (fun a => ⟨a, some i⟩)

/-- Number of iterations of the GNews loop: `enumerate(countries_list or [None])`. -/
def loopLen (countries : List String) : Nat :=
  if countries.isEmpty then 1 else countries.length

/-- The `all_articles` list right before sorting: NewsAPI results, then the
per-iteration GNews results, then (only when no countries were requested) the
extra country-less GNews results. -/
def mergedArticles (countries : List String) (newsapiRes : Except Unit (List Article))
    (gnewsRes : Nat → Except Unit (List Article))
    (gnewsGeneral : Except Unit (List Article)) : List TaggedArticle :=
  tagNone (yieldOf newsapiRes)
    ++ (List.range (loopLen countries)).flatMap (fun i => tagWith i (yieldOf (gnewsRes i)))
    ++ (if countries.isEmpty then tagNone (yieldOf gnewsGeneral) else [])

/-- The comparison underlying Python's
`sorted(key=lambda x: (x.get('country_priority', 999), -parse_date(...).timestamp()))`:
lexicographic ≤ on the key pair. -/
def articleLe (a b : TaggedArticle) : Prop :=
  prio a < prio b ∨ (prio a = prio b ∧ tsOf b ≤ tsOf a)

instance : DecidableRel articleLe := fun a b => by
  unfold articleLe; infer_instance

instance : IsTotal TaggedArticle articleLe := by
  constructor
  intro a b
  unfold articleLe
  rcases Nat.lt_trichotomy (prio a) (prio b) with h | h | h
  · exact Or.inl (Or.inl h)
  · rcases Int.le_total (tsOf b) (tsOf a) with h' | h'
    · exact Or.inl (Or.inr ⟨h, h'⟩)
    · exact Or.inr (Or.inr ⟨h.symm, h'⟩)
  · exact Or.inr (Or.inl h)

instance : IsTrans TaggedArticle articleLe := by
  constructor
  intro a b c hab hbc
  unfold articleLe at *
  omega

/-- Python's `sorted` is a stable sort by the key above; a stable sort by a
total preorder is unique, so insertion sort computes the same list. -/
def sortArticles (l : List TaggedArticle) : List TaggedArticle :=
  List.insertionSort articleLe l

/-- `NewsService.fetch_news`, given the oracle outcomes of its adapter calls:
collect `all_articles`, return `[]` when nothing was fetched, otherwise sort by
(country priority, publish date descending) and truncate to `page_size`. -/
def fetch_news (country : Option String) (newsapiRes : Except Unit (List Article))
    (gnewsRes : Nat → Except Unit (List Article))
    (gnewsGeneral : Except Unit (List Article)) (page_size : Nat) : List TaggedArticle :=
  let all_articles := mergedArticles (countriesList country) newsapiRes gnewsRes gnewsGeneral
  if all_articles.isEmpty then []
  else (sortArticles all_articles).take page_size

/-! ### Formatter (`src/utils/formatter.py`) -/

/-- The parse used by `format_time_ago`: same `'T'`/`'Z'` pre-step as
`_parse_date`, `datetime.fromisoformat` only (no `strptime` fallback); a naive
result is explicitly given `tzinfo=timezone.utc` by the code. -/
def ftaParse (s : String) : Option Int :=
  fromiso (preprocessDate s)

/-- `format_time_ago(published_at)` with the current instant `now` passed in
explicitly (`datetime.now(timezone.utc)` in the code).  The Python locals are
inlined: `diff.days` is the floor quotient `(now - t) / 86400` and
`diff.seconds` the nonnegative remainder `(now - t) % 86400` (Lean's `Int`
division/modulus round toward negative infinity for this positive divisor,
exactly like `timedelta` normalization); `hours`/`minutes` are
`diff.seconds // 3600` and `diff.seconds // 60`. -/
def format_time_ago (now : Int) (published_at : String) : String :=
  if published_at = "" then "Unknown time"
  else
    match ftaParse published_at with
    | none => "Unknown time"
    | some t =>
      if 0 < (now - t) / 86400 then
        toString ((now - t) / 86400) ++ " day"
          ++ (if (now - t) / 86400 = 1 then "" else "s") ++ " ago"
      else if 3600 < (now - t) % 86400 then
        toString ((now - t) % 86400 / 3600) ++ " hour"
          ++ (if (now - t) % 86400 / 3600 = 1 then "" else "s") ++ " ago"
      else if 60 < (now - t) % 86400 then
        toString ((now - t) % 86400 / 60) ++ " minute"
          ++ (if (now - t) % 86400 / 60 = 1 then "" else "s") ++ " ago"
      else "Just now"

/-- A sentiment result: the `label`/`emoji` dict. -/
structure Sentiment where
  label : String
  emoji : String
deriving DecidableEq, Repr

/-- The fixed positive keyword list of `create_simple_sentiment`. -/
def positive_words : List String :=
  ["good", "great", "excellent", "amazing", "wonderful", "fantastic",
   "breakthrough", "success", "win", "achievement", "progress", "growth",
   "innovation", "advance", "improvement", "positive", "benefit"]

/-- The fixed negative keyword list of `create_simple_sentiment`. -/
def negative_words : List String :=
  ["bad", "terrible", "awful", "crisis", "problem", "issue", "concern",
   "decline", "drop", "fall", "crash", "failure", "loss", "damage",
   "threat", "risk", "danger", "negative", "controversy"]

/-- `sum(1 for word in positive_words if word in content_lower)`. -/
def positiveCount (content : String) : Nat :=
  positive_words.countP (fun w => occursIn w.toList (lowerChars content.toList))

/-- `sum(1 for word in negative_words if word in content_lower)`. -/
def negativeCount (content : String) : Nat :=
  negative_words.countP (fun w => occursIn w.toList (lowerChars content.toList))

/-- `create_simple_sentiment`. -/
def create_simple_sentiment (content : String) : Sentiment :=
  if content = "" then ⟨"neutral", "😐"⟩
  else if negativeCount content < positiveCount content then ⟨"positive", "😊"⟩
  else if positiveCount content < negativeCount content then ⟨"negative", "😠"⟩
  else ⟨"neutral", "😐"⟩

/-- The sentence-accumulation loop of `create_simple_summary`: starting from
`summary` (initially empty), append `sentence + '. '` while the result stays
within `max_length`; `break` at the first sentence that does not fit. -/
def summarize_loop (max_length : Nat) : List (List Char) → List Char → List Char
  | [], summary => summary
  | s :: rest, summary =>
    if (summary ++ s ++ ['.', ' ']).length ≤ max_length then
      summarize_loop max_length rest (summary ++ s ++ ['.', ' '])
    else summary

/-- `create_simple_summary(content, max_length)` (default `max_length = 80`).
The Python locals are inlined: `summary` is the loop result, replaced by the
truncation `content[:max_length-3] + "..."` when it is empty, and the returned
value is `summary.strip()`.  Note `content[:max_length-3]` is a Python slice:
for `max_length < 3` the index is negative and counts from the end of the
string (`pyTake`). -/
def create_simple_summary (content : String) (max_length : Nat) : String :=
  if content = "" then content
  else if content.length ≤ max_length then content
  else if (summarize_loop max_length (splitDotSpace content.toList) []).isEmpty then
    String.mk (chTrim (pyTake ((max_length : Int) - 3) content.toList ++ ['.', '.', '.']))
  else
    String.mk (chTrim (summarize_loop max_length (splitDotSpace content.toList) []))

/-- An article as processed by `app.get_news` before formatting: the dict with
keys `title`, `content`, `summary`, `sentiment`, `source`, `publishedAt`,
`language` (all present, so the defaulted `.get` reads in the formatter always
hit the stored values). -/
structure EnrichedArticle where
  title : String
  content : String
  summary : String
  sentiment : Sentiment
  source : String
  publishedAt : String
  language : String
deriving DecidableEq, Repr

/-- `generate_follow_up_suggestions`. -/
def generate_follow_up_suggestions (articles : List EnrichedArticle) : String :=
  if articles.isEmpty then ""
  else
    let all_content :=
      lowerChars (String.intercalate " "
        (articles.map (fun a => a.title ++ " " ++ a.content))).toList
    let suggestions : List String :=
      (if ["bollywood", "tollywood", "kollywood", "indian", "hindi", "telugu",
           "tamil"].any (fun t => occursIn t.toList all_content) then
        ["🎬 [More Bollywood News](/news/topic/bollywood?language=hi&country=in)",
         "🎭 [Telugu Cinema Updates](/news/topic/tollywood?language=te&country=in)",
         "🎪 [Tamil Movies News](/news/topic/kollywood?language=ta&country=in)"]
       else [])
      ++ (if ["ai", "artificial intelligence", "machine learning",
              "tech"].any (fun t => occursIn t.toList all_content) then
        ["🤖 [More AI News](/news/topic/artificial-intelligence?category=technology)",
         "💻 [Tech Innovations](/news/topic/technology-innovation?language=en)"]
       else [])
      ++ (if ["cricket", "football", "sports", "match",
              "tournament"].any (fun t => occursIn t.toList all_content) then
        ["🏏 [Cricket Updates](/news/topic/cricket?country=in,uk,au)",
         "⚽ [Football News](/news/topic/football?country=us,uk,de)"]
       else [])
      ++ (if ["movie", "film", "actor", "actress",
              "celebrity"].any (fun t => occursIn t.toList all_content) then
        ["🌟 [Celebrity News](/news/topic/celebrity?category=entertainment)",
         "🎥 [Movie Reviews](/news/topic/movie-reviews?language=en)"]
       else [])
    if suggestions.isEmpty then
      String.intercalate "\n"
        ["🔥 [Breaking News](/news/topic/breaking-news?language=en)",
         "🇮🇳 [India News](/news?country=in&language=hi)",
         "🌍 [World News](/news?country=us,uk,fr&language=en)"]
    else String.intercalate "\n" (suggestions.take 3)

/-- The fixed digest `format_chat_response` returns for an empty article list. -/
def noArticlesMessage : String :=
  "📰 **No news articles found** 📰\n\nTry searching with different keywords or check back later for fresh content!"

/-- The six formatted lines one article contributes (1-based index `i`). -/
def articleBlock (now : Int) (i : Nat) (a : EnrichedArticle) : List String :=
  ["🔥 **" ++ toString i ++ ". " ++ a.title ++ "**\n",
   "📝 " ++ a.summary ++ "\n",
   a.sentiment.emoji ++ " **Sentiment:** " ++ a.sentiment.label.capitalize ++ "\n",
   "📰 **Source:** " ++ a.source ++ "\n",
   "🕒 **Published:** " ++ format_time_ago now a.publishedAt ++ "\n",
   "---\n"]

/-- The dict returned by `format_chat_response`: the empty-list branch returns
only `data` and `formatted_response` (the other keys absent → `none`); the
nonempty branch fills all five keys.  The `timestamp` key holds the current
instant (serialized with `isoformat()` in Python; the instant itself here). -/
structure ChatResponse where
  data : List EnrichedArticle
  formatted_response : String
  total_articles : Option Nat
  timestamp : Option Int
  follow_up_suggestions : Option String
deriving DecidableEq, Repr

/-- `format_chat_response(articles)`, with the wall clock `now` explicit. -/
def format_chat_response (now : Int) (articles : List EnrichedArticle) : ChatResponse :=
  if articles.isEmpty then ⟨[], noArticlesMessage, none, none, none⟩
  else
    let formatted_lines :=
      "📰 **Latest News** 📰\n"
        :: (List.enumFrom 1 articles).flatMap (fun p => articleBlock now p.1 p.2)
    let formatted_lines :=
      if formatted_lines ≠ [] ∧ formatted_lines.getLast? = some "---\n" then
        formatted_lines.dropLast
      else formatted_lines
    let formatted_response := String.intercalate "\n" formatted_lines
    let follow_up_suggestions := generate_follow_up_suggestions articles
    let formatted_response :=
      if follow_up_suggestions ≠ "" then
        formatted_response ++ "\n\n💡 **More Topics You Might Like:**\n"
          ++ follow_up_suggestions
      else formatted_response
    ⟨articles, formatted_response, some articles.length, some now,
     some follow_up_suggestions⟩

/-! ### The `/news` route after aggregation (`app.get_news`, fallback
processing path: `AI_AVAILABLE = False`) -/

/-- One iteration of the processing loop of `app.get_news` on the fallback
path: build the `processed_article` dict (this path raises no exceptions, so
the per-article `try`/`except` never skips an article). -/
def processArticle (language : String) (t : TaggedArticle) : EnrichedArticle :=
  ⟨t.art.title, t.art.content, create_simple_summary t.art.content 80,
   create_simple_sentiment t.art.content, t.art.source, t.art.publishedAt,
   language⟩

/-- The response value of `app.get_news` after `fetch_news` returned: either
the bare `jsonify([])` (no digest at all) or the formatted chat response. -/
inductive GetNewsResult where
  | emptyJson : GetNewsResult
  | chat : ChatResponse → GetNewsResult
deriving DecidableEq, Repr

/-- `app.get_news` from the point where `fetch_news` has produced `articles`:
`if not articles: return jsonify([])`, otherwise process every article and
return `format_chat_response(processed_articles)`. -/
def get_news_response (now : Int) (language : String)
    (articles : List TaggedArticle) : GetNewsResult :=
  if articles.isEmpty then .emptyJson
  else .chat (format_chat_response now (articles.map (processArticle language)))

/-- The digest a `GetNewsResult` carries, when it carries one. -/
def digestOf : GetNewsResult → Option String
  | .emptyJson => none
  | .chat r => some r.formatted_response

/-! ### Helper lemmas about the ranking -/

/-- Sorting permutes `all_articles`. -/
lemma sortArticles_perm (l : List TaggedArticle) : List.Perm (sortArticles l) l :=
  List.perm_insertionSort articleLe l

/-- The list `fetch_news` returns is sorted by the Python sort key. -/
lemma fetch_news_pairwise (country : Option String)
    (napi : Except Unit (List Article)) (gres : Nat → Except Unit (List Article))
    (ggen : Except Unit (List Article)) (ps : Nat) :
    (fetch_news country napi gres ggen ps).Pairwise articleLe := by
  unfold fetch_news
  by_cases h : (mergedArticles (countriesList country) napi gres ggen).isEmpty
  · rw [if_pos h]; exact List.Pairwise.nil
  · rw [if_neg h]
    exact List.Pairwise.sublist (List.take_sublist _ _)
      (List.sorted_insertionSort articleLe _)

/-- Length of the `fetch_news` output, unconditionally. -/
lemma fetch_news_length (country : Option String)
    (napi : Except Unit (List Article)) (gres : Nat → Except Unit (List Article))
    (ggen : Except Unit (List Article)) (ps : Nat) :
    (fetch_news country napi gres ggen ps).length
      = min (mergedArticles (countriesList country) napi gres ggen).length ps := by
  unfold fetch_news
  by_cases h : (mergedArticles (countriesList country) napi gres ggen).isEmpty
  · rw [if_pos h]
    rw [List.isEmpty_iff.mp h]
    simp
  · rw [if_neg h]
    rw [List.length_take, (sortArticles_perm _).length_eq, Nat.min_comm]

/-- Everything `fetch_news` returns comes from `all_articles`. -/
lemma fetch_news_subset (country : Option String)
    (napi : Except Unit (List Article)) (gres : Nat → Except Unit (List Article))
    (ggen : Except Unit (List Article)) (ps : Nat) :
    ∀ x ∈ fetch_news country napi gres ggen ps,
      x ∈ mergedArticles (countriesList country) napi gres ggen := by
  intro x hx
  unfold fetch_news at hx
  by_cases h : (mergedArticles (countriesList country) napi gres ggen).isEmpty
  · rw [if_pos h] at hx
    cases hx
  · rw [if_neg h] at hx
    exact (sortArticles_perm _).mem_iff.mp ((List.take_sublist _ _).subset hx)

/-! ### C1 -/

/-- C1: in the list returned by `NewsService.fetch_news`, the priority rank
(`country_priority` tag if set, 999-sentinel otherwise) is monotone
non-decreasing along the output, so an article with priority `i` never ranks
after one with priority `j < i`; and in the `["in","us"]` scenario with 2
unranked primary articles, 1 `"in"` article and 2 `"us"` articles, the merged
set has 5 articles ordered: the `"in"` article, then both `"us"` articles
(newest first), then the 2 unranked ones (newest first). -/
theorem c1_priority_monotone :
    (∀ (country : Option String) (napi : Except Unit (List Article))
        (gres : Nat → Except Unit (List Article)) (ggen : Except Unit (List Article))
        (ps : Nat),
      (fetch_news country napi gres ggen ps).Pairwise (fun a b => prio a ≤ prio b)) ∧
    (mergedArticles (countriesList (some "in,us"))
        (Except.ok [⟨"P1", "c", "NewsAPI", "2024-01-05T10:00:00Z", ""⟩,
                    ⟨"P2", "c", "NewsAPI", "2024-01-06T10:00:00Z", ""⟩])
        (fun i => if i = 0 then Except.ok [⟨"IN1", "c", "GNews", "2024-01-01T00:00:00Z", ""⟩]
          else if i = 1 then Except.ok [⟨"US1", "c", "GNews", "2024-01-02T00:00:00Z", ""⟩,
                                        ⟨"US2", "c", "GNews", "2024-01-01T00:00:00Z", ""⟩]
          else Except.error ())
        (Except.error ())).length = 5 ∧
    fetch_news (some "in,us")
        (Except.ok [⟨"P1", "c", "NewsAPI", "2024-01-05T10:00:00Z", ""⟩,
                    ⟨"P2", "c", "NewsAPI", "2024-01-06T10:00:00Z", ""⟩])
        (fun i => if i = 0 then Except.ok [⟨"IN1", "c", "GNews", "2024-01-01T00:00:00Z", ""⟩]
          else if i = 1 then Except.ok [⟨"US1", "c", "GNews", "2024-01-02T00:00:00Z", ""⟩,
                                        ⟨"US2", "c", "GNews", "2024-01-01T00:00:00Z", ""⟩]
          else Except.error ())
        (Except.error ()) 5
      = [⟨⟨"IN1", "c", "GNews", "2024-01-01T00:00:00Z", ""⟩, some 0⟩,
         ⟨⟨"US1", "c", "GNews", "2024-01-02T00:00:00Z", ""⟩, some 1⟩,
         ⟨⟨"US2", "c", "GNews", "2024-01-01T00:00:00Z", ""⟩, some 1⟩,
         ⟨⟨"P2", "c", "NewsAPI", "2024-01-06T10:00:00Z", ""⟩, none⟩,
         ⟨⟨"P1", "c", "NewsAPI", "2024-01-05T10:00:00Z", ""⟩, none⟩] := by
  refine ⟨fun country napi gres ggen ps => ?_, by decide, by decide⟩
  refine (fetch_news_pairwise country napi gres ggen ps).imp ?_
  intro a b hab
  rcases hab with h | ⟨h, _⟩
  · exact Nat.le_of_lt h
  · exact Nat.le_of_eq h

/-! ### C2 -/

/-- C2 (amended): within one priority bucket the `fetch_news` output is
non-increasing by parsed publish time; the parser accepts ISO-8601 with or
without a timezone suffix plus the fallback `YYYY-MM-DD HH:MM:SS` format; an
empty or unparsable `publishedAt` parses as `datetime.min` (UTC), so such
articles rank after every same-bucket article with a strictly later parsed
time — but not necessarily last in the bucket, because a parsable timestamp
with a positive UTC offset at year 1 denotes an instant earlier than
`datetime.min` UTC. -/
theorem c2_bucket_recency_amended :
    (∀ (country : Option String) (napi : Except Unit (List Article))
        (gres : Nat → Except Unit (List Article)) (ggen : Except Unit (List Article))
        (ps : Nat),
      (fetch_news country napi gres ggen ps).Pairwise
        (fun a b => prio a = prio b → tsOf b ≤ tsOf a)) ∧
    parse_date "" = minTimestamp ∧
    (∀ s : String, parsableDate s = false → parse_date s = minTimestamp) ∧
    parse_date "2024-05-01T10:00:00Z" = 1714557600 ∧
    parse_date "2024-05-01T10:00:00" = 1714557600 ∧
    parse_date "2024-05-01T10:00:00+05:30" = 1714537800 ∧
    parse_date "2024-05-01 10:00:00" = 1714557600 := by
  refine ⟨?_, by decide, ?_, by decide, by decide, by decide, by decide⟩
  · intro country napi gres ggen ps
    refine (fetch_news_pairwise country napi gres ggen ps).imp ?_
    intro a b hab heq
    rcases hab with h | ⟨_, h⟩
    · omega
    · exact h
  · intro s hs
    unfold parsableDate at hs
    unfold parse_date
    by_cases he : s = ""
    · rw [if_pos he]
    · rw [if_neg he]
      rcases hF : fromiso (preprocessDate s) with _ | t
      · rcases hS : strptimeFallback s with _ | t
        · rfl
        · simp [hF, hS] at hs
      · simp [hF] at hs

/-- C2 counterexample: `"0001-01-01T00:00:00+10:00"` is parsable yet parses to
an instant strictly before `datetime.min` UTC, so in a bucket holding it
together with an article whose `publishedAt` is unparsable, `fetch_news` ranks
the unparsable article first, not last. -/
theorem c2_rank_last_counterexample :
    parse_date "0001-01-01T00:00:00+10:00" < parse_date "not-a-date" ∧
    parsableDate "0001-01-01T00:00:00+10:00" = true ∧
    parsableDate "not-a-date" = false ∧
    fetch_news none
        (Except.ok [⟨"U", "c", "NewsAPI", "not-a-date", ""⟩,
                    ⟨"E", "c", "NewsAPI", "0001-01-01T00:00:00+10:00", ""⟩])
        (fun _ => Except.error ()) (Except.error ()) 5
      = [⟨⟨"U", "c", "NewsAPI", "not-a-date", ""⟩, none⟩,
         ⟨⟨"E", "c", "NewsAPI", "0001-01-01T00:00:00+10:00", ""⟩, none⟩] :=
  ⟨by decide, by decide, by decide, by decide⟩

/-- C2 witness: the unparsable-timestamp clause of the amended theorem applied
to a concrete garbage string. -/
theorem c2_bucket_recency_witness :
    parse_date "not-a-date" = minTimestamp :=
  c2_bucket_recency_amended.2.2.1 "not-a-date" (by decide)

/-! ### C3 -/

/-- C3: for every merged article list and positive `page_size`, the ranked
output of `fetch_news` has length `min (merged length) page_size`, and it is a
permutation of (contains every article of) the merged list whenever the merged
list fits within `page_size`. -/
theorem c3_rank_truncates :
    ∀ (country : Option String) (napi : Except Unit (List Article))
      (gres : Nat → Except Unit (List Article)) (ggen : Except Unit (List Article))
      (page_size : Nat), 0 < page_size →
      (fetch_news country napi gres ggen page_size).length
          = min (mergedArticles (countriesList country) napi gres ggen).length page_size
        ∧ ((mergedArticles (countriesList country) napi gres ggen).length ≤ page_size →
            List.Perm (fetch_news country napi gres ggen page_size)
              (mergedArticles (countriesList country) napi gres ggen)) := by
  intro country napi gres ggen ps _
  refine ⟨fetch_news_length country napi gres ggen ps, ?_⟩
  intro hle
  unfold fetch_news
  by_cases h : (mergedArticles (countriesList country) napi gres ggen).isEmpty
  · rw [if_pos h, List.isEmpty_iff.mp h]
  · rw [if_neg h,
      List.take_of_length_le (by rw [(sortArticles_perm _).length_eq]; exact hle)]
    exact sortArticles_perm _

/-- C3 witness: the length clause at one NewsAPI article and `page_size = 3`. -/
theorem c3_rank_truncates_witness :
    (fetch_news none (Except.ok [⟨"A", "c", "NewsAPI", "2024-01-01T00:00:00Z", ""⟩])
        (fun _ => Except.error ()) (Except.error ()) 3).length
      = min (mergedArticles (countriesList none)
          (Except.ok [⟨"A", "c", "NewsAPI", "2024-01-01T00:00:00Z", ""⟩])
          (fun _ => Except.error ()) (Except.error ())).length 3 :=
  (c3_rank_truncates none (Except.ok [⟨"A", "c", "NewsAPI", "2024-01-01T00:00:00Z", ""⟩])
    (fun _ => Except.error ()) (Except.error ()) 3 (by decide)).1

/-! ### C4 -/

/-- C4: for every combination of adapter outcomes, `fetch_news` absorbs every
failure: every article of every successful call lands in `all_articles` (with
the tag the loop assigns), everything returned comes from `all_articles`, and
the result is empty exactly when every adapter call yielded nothing. -/
theorem c4_soft_failure :
    ∀ (country : Option String) (napi : Except Unit (List Article))
      (gres : Nat → Except Unit (List Article)) (ggen : Except Unit (List Article))
      (page_size : Nat), 0 < page_size →
      (∀ a ∈ yieldOf napi,
        (⟨a, none⟩ : TaggedArticle) ∈ mergedArticles (countriesList country) napi gres ggen) ∧
      (∀ i, i < loopLen (countriesList country) → ∀ a ∈ yieldOf (gres i),
        (⟨a, some i⟩ : TaggedArticle) ∈ mergedArticles (countriesList country) napi gres ggen) ∧
      ((countriesList country).isEmpty = true → ∀ a ∈ yieldOf ggen,
        (⟨a, none⟩ : TaggedArticle) ∈ mergedArticles (countriesList country) napi gres ggen) ∧
      (∀ x ∈ fetch_news country napi gres ggen page_size,
        x ∈ mergedArticles (countriesList country) napi gres ggen) ∧
      (fetch_news country napi gres ggen page_size = []
        ↔ mergedArticles (countriesList country) napi gres ggen = []) ∧
      (mergedArticles (countriesList country) napi gres ggen = []
        ↔ yieldOf napi = []
          ∧ (∀ i, i < loopLen (countriesList country) → yieldOf (gres i) = [])
          ∧ ((countriesList country).isEmpty = true → yieldOf ggen = [])) := by
  intro country napi gres ggen ps hps
  refine ⟨?_, ?_, ?_, fetch_news_subset country napi gres ggen ps, ?_, ?_⟩
  · intro a ha
    unfold mergedArticles
    rw [List.mem_append, List.mem_append]
    exact Or.inl (Or.inl (List.mem_map_of_mem _ ha))
  · intro i hi a ha
    unfold mergedArticles
    rw [List.mem_append, List.mem_append]
    exact Or.inl (Or.inr (List.mem_flatMap.mpr
      ⟨i, List.mem_range.mpr hi, List.mem_map_of_mem _ ha⟩))
  · intro hemp a ha
    unfold mergedArticles
    rw [List.mem_append, if_pos hemp]
    exact Or.inr (List.mem_map_of_mem _ ha)
  · constructor
    · intro hfe
      by_contra hne
      have hlen := fetch_news_length country napi gres ggen ps
      rw [hfe] at hlen
      have hl : 0 < (mergedArticles (countriesList country) napi gres ggen).length :=
        List.length_pos.mpr hne
      simp only [List.length_nil] at hlen
      omega
    · intro hm
      simp [fetch_news, hm]
  · unfold mergedArticles tagNone tagWith
    rw [List.append_eq_nil, List.append_eq_nil, List.map_eq_nil_iff,
      List.flatMap_eq_nil_iff]
    constructor
    · rintro ⟨⟨h1, h2⟩, h3⟩
      refine ⟨h1, ?_, ?_⟩
      · intro i hi
        have := h2 i (List.mem_range.mpr hi)
        rwa [List.map_eq_nil_iff] at this
      · intro hemp
        rw [if_pos hemp] at h3
        rwa [List.map_eq_nil_iff] at h3
    · rintro ⟨h1, h2, h3⟩
      refine ⟨⟨h1, ?_⟩, ?_⟩
      · intro i hi
        rw [List.map_eq_nil_iff]
        exact h2 i (List.mem_range.mp hi)
      · by_cases hemp : (countriesList country).isEmpty
        · rw [if_pos hemp, List.map_eq_nil_iff]
          exact h3 hemp
        · rw [if_neg hemp]

/-- C4 witness: with every adapter call failing, the merged set is empty. -/
theorem c4_soft_failure_witness :
    mergedArticles (countriesList none) (Except.error ())
        (fun _ => Except.error ()) (Except.error ()) = []
      ↔ yieldOf (Except.error () : Except Unit (List Article)) = []
        ∧ (∀ i, i < loopLen (countriesList none) →
            yieldOf ((fun _ => (Except.error () : Except Unit (List Article))) i) = [])
        ∧ ((countriesList none).isEmpty = true →
            yieldOf (Except.error () : Except Unit (List Article)) = []) :=
  (c4_soft_failure none (Except.error ()) (fun _ => Except.error ())
    (Except.error ()) 5 (by decide)).2.2.2.2.2

/-! ### C6 and C10 -/

/-- The `content == ''` early return of `create_simple_sentiment` agrees with
the count comparison (both counts are 0 on the empty string). -/
lemma create_simple_sentiment_eq (content : String) :
    create_simple_sentiment content =
      if negativeCount content < positiveCount content then ⟨"positive", "😊"⟩
      else if positiveCount content < negativeCount content then ⟨"negative", "😠"⟩
      else ⟨"neutral", "😐"⟩ := by
  unfold create_simple_sentiment
  by_cases hc : content = ""
  · subst hc
    decide
  · rw [if_neg hc]

/-- C6: `create_simple_sentiment` classifies positive exactly when the
positive-keyword count strictly exceeds the negative one, negative exactly in
the opposite case, and neutral exactly on equal counts, with the display
emojis; a text with 3 positive hits and 1 negative hit is positive, and one
with 2 hits of each is neutral. -/
theorem c6_sentiment_classification :
    (∀ content : String,
      (create_simple_sentiment content = ⟨"positive", "😊"⟩
        ↔ negativeCount content < positiveCount content) ∧
      (create_simple_sentiment content = ⟨"negative", "😠"⟩
        ↔ positiveCount content < negativeCount content) ∧
      (create_simple_sentiment content = ⟨"neutral", "😐"⟩
        ↔ positiveCount content = negativeCount content)) ∧
    create_simple_sentiment "good great success crash" = ⟨"positive", "😊"⟩ ∧
    positiveCount "good great success crash" = 3 ∧
    negativeCount "good great success crash" = 1 ∧
    create_simple_sentiment "good great bad terrible" = ⟨"neutral", "😐"⟩ ∧
    positiveCount "good great bad terrible" = 2 ∧
    negativeCount "good great bad terrible" = 2 := by
  refine ⟨?_, by decide, by decide, by decide, by decide, by decide, by decide⟩
  intro content
  rw [create_simple_sentiment_eq]
  rcases Nat.lt_trichotomy (positiveCount content) (negativeCount content) with h | h | h
  · rw [if_neg (by omega), if_pos h]
    exact ⟨⟨fun he => absurd he (by decide), fun hlt => absurd hlt (by omega)⟩,
      ⟨fun _ => h, fun _ => rfl⟩,
      ⟨fun he => absurd he (by decide), fun heq => absurd heq (by omega)⟩⟩
  · rw [if_neg (by omega), if_neg (by omega)]
    exact ⟨⟨fun he => absurd he (by decide), fun hlt => absurd hlt (by omega)⟩,
      ⟨fun he => absurd he (by decide), fun hlt => absurd hlt (by omega)⟩,
      ⟨fun _ => h, fun _ => rfl⟩⟩
  · rw [if_pos h]
    exact ⟨⟨fun _ => h, fun _ => rfl⟩,
      ⟨fun he => absurd he (by decide), fun hlt => absurd hlt (by omega)⟩,
      ⟨fun he => absurd he (by decide), fun heq => absurd heq (by omega)⟩⟩

/-- C10: each fixed keyword contributes at most 1 to its polarity count no
matter how often it occurs (`positiveCount "win win win" = 1`), matching is
case-insensitive substring containment (`"win"` inside `"Winter"` counts), and
the counts are bounded by the keyword-list sizes (17 positive, 19 negative). -/
theorem c10_keyword_hit_counting :
    (∀ content : String,
      positiveCount content ≤ positive_words.length ∧
      negativeCount content ≤ negative_words.length) ∧
    positive_words.length = 17 ∧ negative_words.length = 19 ∧
    positiveCount "win win win" = 1 ∧
    occursIn "win".toList (lowerChars "Winter".toList) = true ∧
    positiveCount "Winter" = 1 ∧ negativeCount "Winter" = 0 ∧
    create_simple_sentiment "Winter" = ⟨"positive", "😊"⟩ := by
  refine ⟨?_, by decide, by decide, by decide, by decide, by decide, by decide, by decide⟩
  intro content
  unfold positiveCount negativeCount
  exact ⟨List.countP_le_length _, List.countP_le_length _⟩

/-! ### C9 -/

/-- C9: the keyword enhancer is a pure first-match-wins case-insensitive
substring lookup over the fixed table: the enhancement of `"bollywood"`
contains `"hindi"`, `"mumbai"` and `"films"`, and any keyword matching no
table key and no entertainment-context term is returned unchanged. -/
theorem c9_keyword_enhancer :
    containsStr (enhance_keyword_for_indian_content "bollywood") "hindi" = true ∧
    containsStr (enhance_keyword_for_indian_content "bollywood") "mumbai" = true ∧
    containsStr (enhance_keyword_for_indian_content "bollywood") "films" = true ∧
    (∀ keyword : String,
      (∀ t ∈ ["indian movies", "bollywood", "tollywood", "kollywood", "movies",
              "cinema"], occursIn t.toList (lowerChars keyword.toList) = false) →
      (∀ t ∈ entertainmentTerms,
        occursIn t.toList (lowerChars keyword.toList) = false) →
      enhance_keyword_for_indian_content keyword = keyword) := by
  refine ⟨by decide, by decide, by decide, ?_⟩
  intro keyword h1 h2
  have hfind : (indian_movie_terms keyword).find?
      (fun p => occursIn p.1.toList (lowerChars keyword.toList)) = none := by
    rw [List.find?_eq_none]
    intro p hp
    unfold indian_movie_terms at hp
    simp only [List.mem_cons, List.not_mem_nil, or_false] at hp
    rcases hp with rfl | rfl | rfl | rfl | rfl | rfl
    · exact fun hcon => Bool.noConfusion ((h1 "indian movies" (by simp)).symm.trans hcon)
    · exact fun hcon => Bool.noConfusion ((h1 "bollywood" (by simp)).symm.trans hcon)
    · exact fun hcon => Bool.noConfusion ((h1 "tollywood" (by simp)).symm.trans hcon)
    · exact fun hcon => Bool.noConfusion ((h1 "kollywood" (by simp)).symm.trans hcon)
    · exact fun hcon => Bool.noConfusion ((h1 "movies" (by simp)).symm.trans hcon)
    · exact fun hcon => Bool.noConfusion ((h1 "cinema" (by simp)).symm.trans hcon)
  have hany : entertainmentTerms.any
      (fun w => occursIn w.toList (lowerChars keyword.toList)) = false := by
    rw [List.any_eq_false]
    intro w hw
    exact fun hcon => Bool.noConfusion ((h2 w hw).symm.trans hcon)
  unfold enhance_keyword_for_indian_content
  rw [hfind]
  show (if entertainmentTerms.any
      (fun w => occursIn w.toList (lowerChars keyword.toList)) = true then
    keyword ++ " india bollywood" else keyword) = keyword
  rw [hany, if_neg (by decide)]

/-- C9 witness: a keyword triggering neither the table nor the entertainment
terms is returned unchanged. -/
theorem c9_keyword_enhancer_witness :
    enhance_keyword_for_indian_content "quantum" = "quantum" :=
  c9_keyword_enhancer.2.2.2 "quantum" (by decide) (by decide)

/-! ### C7 -/

/-- C7 counterexample: when the aggregation result is empty, `app.get_news`
returns the bare empty JSON list without ever invoking `format_chat_response`,
so the response carries no digest at all — in particular not the fixed
"no articles found" message. -/
theorem c7_empty_digest_counterexample :
    get_news_response 0 "en" [] = GetNewsResult.emptyJson ∧
    digestOf (get_news_response 0 "en" []) = none ∧
    digestOf (get_news_response 0 "en" []) ≠ some noArticlesMessage :=
  ⟨rfl, rfl, fun h => Option.noConfusion h⟩

/-- C7 (amended): on an empty aggregation result `app.get_news` raises no
exception and returns the bare empty list, producing no digest; the composer
`format_chat_response` itself, applied to the empty list, returns `data = []`
together with the fixed no-articles `formatted_response` instead of walking an
empty list. -/
theorem c7_empty_aggregation_amended :
    (∀ (now : Int) (language : String),
      get_news_response now language [] = GetNewsResult.emptyJson) ∧
    (∀ now : Int,
      (format_chat_response now []).data = [] ∧
      (format_chat_response now []).formatted_response = noArticlesMessage) :=
  ⟨fun _ _ => rfl, fun _ => ⟨rfl, rfl⟩⟩

/-! ### C8 -/

/-- Reduction of `format_time_ago` once the timestamp parses. -/
lemma format_time_ago_parsed (now t : Int) (s : String) (he : s ≠ "")
    (hp : ftaParse s = some t) :
    format_time_ago now s =
      if 0 < (now - t) / 86400 then
        toString ((now - t) / 86400) ++ " day"
          ++ (if (now - t) / 86400 = 1 then "" else "s") ++ " ago"
      else if 3600 < (now - t) % 86400 then
        toString ((now - t) % 86400 / 3600) ++ " hour"
          ++ (if (now - t) % 86400 / 3600 = 1 then "" else "s") ++ " ago"
      else if 60 < (now - t) % 86400 then
        toString ((now - t) % 86400 / 60) ++ " minute"
          ++ (if (now - t) % 86400 / 60 = 1 then "" else "s") ++ " ago"
      else "Just now" := by
  unfold format_time_ago
  rw [if_neg he, hp]

/-- C8 (amended): `format_time_ago` renders "Unknown time" on an empty or
unparsable `publishedAt`; day granularity when the difference is at least one
whole day; hour granularity only when the day-remainder seconds strictly
exceed 3600 and minute granularity only when they strictly exceed 60 (so an
article exactly one hour old renders "60 minutes ago" and one exactly one
minute old renders "Just now"); otherwise "Just now"; a timestamp 25 hours in
the past renders "1 day ago". -/
theorem c8_time_ago_amended :
    (∀ now : Int, format_time_ago now "" = "Unknown time") ∧
    (∀ (now : Int) (s : String), ftaParse s = none →
      format_time_ago now s = "Unknown time") ∧
    (∀ (now t : Int) (s : String), ftaParse s = some t → 86400 ≤ now - t →
      format_time_ago now s = toString ((now - t) / 86400) ++ " day"
        ++ (if (now - t) / 86400 = 1 then "" else "s") ++ " ago") ∧
    (∀ (now t : Int) (s : String), ftaParse s = some t →
      0 ≤ now - t → now - t < 86400 →
      (3600 < now - t →
        format_time_ago now s = toString ((now - t) / 3600) ++ " hour"
          ++ (if (now - t) / 3600 = 1 then "" else "s") ++ " ago") ∧
      (60 < now - t → now - t ≤ 3600 →
        format_time_ago now s = toString ((now - t) / 60) ++ " minute"
          ++ (if (now - t) / 60 = 1 then "" else "s") ++ " ago") ∧
      (now - t ≤ 60 → format_time_ago now s = "Just now")) ∧
    format_time_ago 90000 "1970-01-01T00:00:00Z" = "1 day ago" ∧
    format_time_ago 3600 "1970-01-01T00:00:00Z" = "60 minutes ago" ∧
    format_time_ago 60 "1970-01-01T00:00:00Z" = "Just now" := by
  refine ⟨fun now => rfl, ?_, ?_, ?_, by decide, by decide, by decide⟩
  · intro now s hp
    unfold format_time_ago
    by_cases he : s = ""
    · rw [if_pos he]
    · rw [if_neg he, hp]
  · intro now t s hp hd
    by_cases he : s = ""
    · subst he
      exact Option.noConfusion ((show ftaParse "" = none from rfl).symm.trans hp)
    · rw [format_time_ago_parsed now t s he hp, if_pos (by omega)]
  · intro now t s hp h0 hlt
    by_cases he : s = ""
    · subst he
      exact Option.noConfusion ((show ftaParse "" = none from rfl).symm.trans hp)
    · have hmod : (now - t) % 86400 = now - t := by omega
      refine ⟨?_, ?_, ?_⟩
      · intro hh
        rw [format_time_ago_parsed now t s he hp, if_neg (by omega),
          if_pos (by omega), hmod]
      · intro hm hh
        rw [format_time_ago_parsed now t s he hp, if_neg (by omega),
          if_neg (by omega), if_pos (by omega), hmod]
      · intro hj
        rw [format_time_ago_parsed now t s he hp, if_neg (by omega),
          if_neg (by omega), if_neg (by omega)]

/-- C8 counterexample: an article exactly one hour old (3600 seconds) is "at
least 1 hour old" yet renders with minute granularity, "60 minutes ago",
not "1 hour ago". -/
theorem c8_hour_boundary_counterexample :
    format_time_ago 3600 "1970-01-01T00:00:00Z" = "60 minutes ago" ∧
    format_time_ago 3600 "1970-01-01T00:00:00Z" ≠ "1 hour ago" := by
  refine ⟨by decide, by decide⟩

/-- C8 witness: the day-granularity clause applied at a concrete timestamp two
days in the past. -/
theorem c8_time_ago_witness :
    format_time_ago 172800 "1970-01-01T00:00:00Z"
      = toString ((172800 - 0 : Int) / 86400) ++ " day"
        ++ (if (172800 - 0 : Int) / 86400 = 1 then "" else "s") ++ " ago" :=
  c8_time_ago_amended.2.2.1 172800 0 "1970-01-01T00:00:00Z" (by decide) (by decide)

/-! ### C5 -/

/-- The string the loop accumulates for a sentence list: every sentence is
re-joined with the `'. '` separator the loop appends. -/
def joinDots : List (List Char) → List Char
  | [] => []
  | s :: rest => s ++ '.' :: ' ' :: joinDots rest

/-- Does the string end in the three-character ellipsis marker `"..."`. -/
def endsInDots (s : String) : Bool :=
  (['.', '.', '.'] : List Char).isPrefixOf s.toList.reverse

/-- `split('. ')` never produces an empty list of parts. -/
lemma splitDotSpace_ne_nil (cs : List Char) : splitDotSpace cs ≠ [] := by
  induction cs using splitDotSpace.induct <;> simp [splitDotSpace]
  all_goals split <;> simp_all

/-- Stripping only ever shortens a string. -/
lemma chTrim_length_le (cs : List Char) : (chTrim cs).length ≤ cs.length := by
  unfold chTrim
  calc ((cs.dropWhile Char.isWhitespace).reverse.dropWhile Char.isWhitespace).reverse.length
      = ((cs.dropWhile Char.isWhitespace).reverse.dropWhile Char.isWhitespace).length := by
        rw [List.length_reverse]
    _ ≤ (cs.dropWhile Char.isWhitespace).reverse.length :=
        (List.dropWhile_sublist _).length_le
    _ = (cs.dropWhile Char.isWhitespace).length := by rw [List.length_reverse]
    _ ≤ cs.length := (List.dropWhile_sublist _).length_le

/-- Dropping leading whitespace preserves a trailing `"..."`. -/
lemma dropWhile_suffix_dots (xs : List Char) :
    ∃ ys, (xs ++ ['.', '.', '.']).dropWhile Char.isWhitespace
      = ys ++ ['.', '.', '.'] := by
  induction xs with
  | nil =>
    refine ⟨[], ?_⟩
    decide
  | cons c xs ih =>
    by_cases hc : Char.isWhitespace c
    · obtain ⟨ys, hys⟩ := ih
      refine ⟨ys, ?_⟩
      rw [List.cons_append, List.dropWhile_cons, if_pos hc]
      exact hys
    · refine ⟨c :: xs, ?_⟩
      rw [List.cons_append, List.dropWhile_cons, if_neg hc]

/-- Stripping preserves a trailing `"..."` (no whitespace follows the dots). -/
lemma chTrim_suffix_dots (xs : List Char) :
    ∃ ys, chTrim (xs ++ ['.', '.', '.']) = ys ++ ['.', '.', '.'] := by
  obtain ⟨ys, hys⟩ := dropWhile_suffix_dots xs
  unfold chTrim
  rw [hys, List.reverse_append,
    show (['.', '.', '.'] : List Char).reverse = ['.', '.', '.'] from by decide]
  rw [show (['.', '.', '.'] : List Char) ++ ys.reverse
      = '.' :: '.' :: '.' :: ys.reverse from rfl]
  rw [List.dropWhile_cons, if_neg (by decide)]
  refine ⟨ys, ?_⟩
  rw [show ('.' : Char) :: '.' :: '.' :: ys.reverse
      = (['.', '.', '.'] : List Char) ++ ys.reverse from rfl]
  rw [List.reverse_append, List.reverse_reverse,
    show (['.', '.', '.'] : List Char).reverse = ['.', '.', '.'] from by decide]

/-- A string of the shape `ys ++ "..."` ends in the ellipsis marker. -/
lemma endsInDots_of_suffix (ys : List Char) :
    endsInDots (String.mk (ys ++ ['.', '.', '.'])) = true := by
  unfold endsInDots
  show (['.', '.', '.'] : List Char).isPrefixOf (ys ++ ['.', '.', '.']).reverse = true
  rw [List.reverse_append,
    show (['.', '.', '.'] : List Char).reverse = ['.', '.', '.'] from by decide]
  rw [List.isPrefixOf_iff_prefix]
  exact List.prefix_append _ _

/-- Behaviour of the greedy accumulation loop: it returns the accumulator
extended by the re-joined first `k` sentences, where the accumulated length
stays within budget (unless nothing was appended) and the (k+1)-st sentence
would have exceeded it. -/
lemma summarize_loop_spec (maxL : Nat) (sents : List (List Char)) :
    ∀ acc : List Char, ∃ k, k ≤ sents.length ∧
      summarize_loop maxL sents acc = acc ++ joinDots (sents.take k) ∧
      (k = 0 ∨ (acc ++ joinDots (sents.take k)).length ≤ maxL) ∧
      (k < sents.length → maxL < (acc ++ joinDots (sents.take (k + 1))).length) := by
  induction sents with
  | nil =>
    intro acc
    refine ⟨0, Nat.le_refl 0, by simp [summarize_loop, joinDots], Or.inl rfl, ?_⟩
    intro h
    exact absurd h (by simp)
  | cons s rest ih =>
    intro acc
    by_cases htest : (acc ++ s ++ ['.', ' ']).length ≤ maxL
    · obtain ⟨k', hk'le, heq, hbound, hmax⟩ := ih (acc ++ s ++ ['.', ' '])
      refine ⟨k' + 1, by simpa using Nat.succ_le_succ hk'le, ?_, ?_, ?_⟩
      · rw [show summarize_loop maxL (s :: rest) acc
            = if (acc ++ s ++ ['.', ' ']).length ≤ maxL then
                summarize_loop maxL rest (acc ++ s ++ ['.', ' '])
              else acc from rfl, if_pos htest, heq, List.take_succ_cons]
        simp [joinDots, List.append_assoc]
      · refine Or.inr ?_
        rw [List.take_succ_cons]
        rcases hbound with h0 | hle
        · rw [h0] at heq ⊢
          simp only [joinDots, List.take_zero, List.length_append, List.length_cons,
            List.length_nil] at htest ⊢
          omega
        · simp only [joinDots, List.length_append, List.length_cons,
            List.length_nil] at hle ⊢
          omega
      · intro hlt
        have hk : k' < rest.length := by
          simp only [List.length_cons] at hlt
          omega
        have h2 := hmax hk
        rw [List.take_succ_cons]
        simp only [joinDots, List.length_append, List.length_cons,
          List.length_nil] at h2 ⊢
        omega
    · refine ⟨0, Nat.zero_le _, ?_, Or.inl rfl, ?_⟩
      · rw [show summarize_loop maxL (s :: rest) acc
            = if (acc ++ s ++ ['.', ' ']).length ≤ maxL then
                summarize_loop maxL rest (acc ++ s ++ ['.', ' '])
              else acc from rfl, if_neg htest]
        simp [joinDots]
      · intro _
        rw [show (0 : Nat) + 1 = 1 from rfl]
        rw [show (s :: rest).take 1 = [s] from by simp]
        simp only [joinDots, List.length_append, List.length_cons,
          List.length_nil] at htest ⊢
        omega

/-- C5 (amended): content within `max_length` is returned unchanged; if the
content is longer and the first sentence together with its `'. '` separator
does not fit (its length exceeds `max_length - 2`), the result is the Python
slice `content[:max_length-3]` with `"..."` appended and stripped — for
`max_length ≥ 3` a string no longer than `max_length` ending in the ellipsis
marker (for `max_length < 3` the negative slice index counts from the end of
the string, so the bound fails); otherwise the result is the stripped greedy
accumulation of a maximal prefix of whole sentences, each re-joined with
`'. '`, whose total length stays at or under `max_length`. -/
theorem c5_summary_amended :
    ∀ (content : String) (max_length : Nat),
      (content.length ≤ max_length →
        create_simple_summary content max_length = content) ∧
      (max_length < content.length →
        max_length < ((splitDotSpace content.toList).headD []).length + 2 →
        create_simple_summary content max_length
            = String.mk (chTrim (pyTake ((max_length : Int) - 3) content.toList
                ++ ['.', '.', '.']))
          ∧ endsInDots (create_simple_summary content max_length) = true
          ∧ (3 ≤ max_length →
              (create_simple_summary content max_length).length ≤ max_length)) ∧
      (max_length < content.length →
        ((splitDotSpace content.toList).headD []).length + 2 ≤ max_length →
        ∃ k, 1 ≤ k ∧ k ≤ (splitDotSpace content.toList).length ∧
          create_simple_summary content max_length
            = String.mk (chTrim (joinDots ((splitDotSpace content.toList).take k)))
          ∧ (joinDots ((splitDotSpace content.toList).take k)).length ≤ max_length
          ∧ (k < (splitDotSpace content.toList).length →
              max_length < (joinDots ((splitDotSpace content.toList).take (k + 1))).length)) := by
  intro content max_length
  refine ⟨?_, ?_, ?_⟩
  · intro hle
    unfold create_simple_summary
    by_cases h0 : content = ""
    · rw [if_pos h0]
    · rw [if_neg h0, if_pos hle]
  · intro hgt hfirst
    have h0 : content ≠ "" := by
      intro h
      rw [h] at hgt
      have hzero : ("" : String).length = 0 := rfl
      omega
    have hloop : summarize_loop max_length (splitDotSpace content.toList) [] = [] := by
      obtain ⟨s₀, rest, hsent⟩ : ∃ s₀ rest, splitDotSpace content.toList = s₀ :: rest := by
        rcases hh : splitDotSpace content.toList with _ | ⟨a, b⟩
        · exact absurd hh (splitDotSpace_ne_nil _)
        · exact ⟨a, b, rfl⟩
      rw [hsent] at hfirst ⊢
      rw [show (s₀ :: rest).headD ([] : List Char) = s₀ from rfl] at hfirst
      have hcond : ¬ ((([] : List Char) ++ s₀ ++ ['.', ' ']).length ≤ max_length) := by
        simp only [List.nil_append, List.length_append, List.length_cons, List.length_nil]
        omega
      rw [show summarize_loop max_length (s₀ :: rest) ([] : List Char)
          = if (([] : List Char) ++ s₀ ++ ['.', ' ']).length ≤ max_length then
              summarize_loop max_length rest (([] : List Char) ++ s₀ ++ ['.', ' '])
            else [] from rfl, if_neg hcond]
    unfold create_simple_summary
    rw [if_neg h0, if_neg (by omega), if_pos (by rw [hloop]; rfl)]
    obtain ⟨ys, hys⟩ := chTrim_suffix_dots (pyTake ((max_length : Int) - 3) content.toList)
    refine ⟨rfl, ?_, ?_⟩
    · rw [hys]
      exact endsInDots_of_suffix ys
    · intro h3
      have h1 : (pyTake ((max_length : Int) - 3) content.toList).length
          ≤ max_length - 3 := by
        unfold pyTake
        rw [if_pos (by omega : (0 : Int) ≤ (max_length : Int) - 3), List.length_take]
        omega
      calc (String.mk (chTrim (pyTake ((max_length : Int) - 3) content.toList
              ++ ['.', '.', '.']))).length
          = (chTrim (pyTake ((max_length : Int) - 3) content.toList
              ++ ['.', '.', '.'])).length := rfl
        _ ≤ (pyTake ((max_length : Int) - 3) content.toList ++ ['.', '.', '.']).length :=
            chTrim_length_le _
        _ ≤ max_length := by
            rw [List.length_append]
            simp only [List.length_cons, List.length_nil]
            omega
  · intro hgt hfirst
    have h0 : content ≠ "" := by
      intro h
      rw [h] at hgt
      have hzero : ("" : String).length = 0 := rfl
      omega
    obtain ⟨s₀, rest, hsent⟩ : ∃ s₀ rest, splitDotSpace content.toList = s₀ :: rest := by
      rcases hh : splitDotSpace content.toList with _ | ⟨a, b⟩
      · exact absurd hh (splitDotSpace_ne_nil _)
      · exact ⟨a, b, rfl⟩
    obtain ⟨k, hkle, heq, hbound, hmax⟩ :=
      summarize_loop_spec max_length (splitDotSpace content.toList) []
    rw [hsent] at hfirst
    rw [show (s₀ :: rest).headD ([] : List Char) = s₀ from rfl] at hfirst
    have hk1 : 1 ≤ k := by
      rcases Nat.eq_zero_or_pos k with h0k | hpos
      · exfalso
        have hlt : k < (splitDotSpace content.toList).length := by
          rw [hsent, h0k]
          simp
        have hthis := hmax hlt
        rw [h0k, hsent] at hthis
        rw [show (s₀ :: rest).take (0 + 1) = [s₀] from by simp] at hthis
        simp only [joinDots, List.nil_append, List.length_append, List.length_cons,
          List.length_nil] at hthis
        omega
      · exact hpos
    obtain ⟨k', rfl⟩ : ∃ k', k = k' + 1 := ⟨k - 1, by omega⟩
    have hjoin : joinDots ((s₀ :: rest).take (k' + 1))
        = s₀ ++ '.' :: ' ' :: joinDots (rest.take k') := by
      rw [List.take_succ_cons]
      rfl
    have hne : (summarize_loop max_length (splitDotSpace content.toList) []).isEmpty
        = false := by
      rw [heq, List.nil_append, hsent, hjoin]
      simp [List.isEmpty_iff]
    refine ⟨k' + 1, hk1, ?_, ?_, ?_, ?_⟩
    · rw [hsent]
      rw [hsent] at hkle
      exact hkle
    · have hnottrue : ¬ ((summarize_loop max_length
          (splitDotSpace content.toList) []).isEmpty = true) := by
        rw [hne]
        exact fun hcon => Bool.noConfusion hcon
      unfold create_simple_summary
      rw [if_neg h0, if_neg (by omega), if_neg hnottrue]
      rw [heq, List.nil_append]
    · rcases hbound with hzero | hle
      · exact absurd hzero (by omega)
      · rw [List.nil_append] at hle
        exact hle
    · intro hlt
      have hthis := hmax hlt
      rw [List.nil_append] at hthis
      exact hthis

/-- C5 counterexample: with `max_length = 1` every sentence of
`"ab. cd. ef"` exceeds the budget, yet the result has length 11, far above
`max_length`, because the Python slice index `1 - 3 = -2` counts from the end
of the string; and for `"abcdefghi. there"` with `max_length = 10` not every
sentence exceeds the budget (the claim's greedy case), yet the code still
returns the truncated-ellipsis form because no whole sentence plus its
separator fits, so the greedy accumulation is empty. -/
theorem c5_summary_counterexample :
    ("ab. cd. ef" : String).length = 10 ∧
    (splitDotSpace ("ab. cd. ef" : String).toList).all (fun s => 1 < s.length) = true ∧
    (create_simple_summary "ab. cd. ef" 1).length = 11 ∧
    ("abcdefghi. there" : String).length = 16 ∧
    (splitDotSpace ("abcdefghi. there" : String).toList).all
      (fun s => 10 < s.length) = false ∧
    summarize_loop 10 (splitDotSpace ("abcdefghi. there" : String).toList) [] = [] ∧
    create_simple_summary "abcdefghi. there" 10 = "abcdefg..." :=
  ⟨by decide, by decide, by decide, by decide, by decide, by decide, by decide⟩

/-- C5 witness: the unchanged-content clause and the ellipsis clause applied
at concrete inputs. -/
theorem c5_summary_witness :
    create_simple_summary "Short text." 80 = "Short text." ∧
    endsInDots (create_simple_summary "abcdefghij klmno" 10) = true :=
  ⟨(c5_summary_amended "Short text." 80).1 (by decide),
   ((c5_summary_amended "abcdefghij klmno" 10).2.1 (by decide) (by decide)).2.1⟩
